import Mathlib

/-!
Shallow embedding of the lbrytv-player stream reader (player/stream.go) and
the HTTP request handler (handler.go), with theorems settling the claims
about size determination, seeking, reading, retrying, prefetching, error
mapping, header writing and URI extraction.

Machine integers are embedded as Nat / Int with explicit reduction modulo
2^64 exactly where the Go code computes in uint64 or int64.  Effectful
collaborators that live behind the hot-cache interface (the blob source)
are embedded as a record of pure oracle functions.
-/

set_option maxRecDepth 4000

/-- 2^64, the modulus of Go uint64 arithmetic. -/
def two64 : Nat := 18446744073709551616

/-- stream.MaxBlobSize from the lbry.go stream package: 2 MiB. -/
def MaxBlobSize : Nat := 2097152

/-- Modelled from the spec: MaxChunkSize is the maximum plaintext chunk size,
2 MiB minus 16 bytes.  The constant is declared outside the provided source
files. -/
def MaxChunkSize : Nat := 2097136

/-- Modelled from the spec: the default prefetch window is 5 chunks.  The
constant is declared outside the provided source files. -/
def DefaultPrefetchLen : Nat := 5

/-- Errors produced by the embedded code.  Named constructors stand for the
distinct error values of the Go code (errStreamSizeZero, errOutOfBounds,
errSeekingBeforeStart, the invalid-whence error, the blob-index error and
the claim-is-not-a-stream error); `eof` stands for io.EOF, which the source
never produces but the spec mentions; `otherMsg` carries any other error
text coming out of the blob source. -/
inductive GoError where
  | streamSizeZero
  | outOfBounds
  | seekingBeforeStart
  | invalidWhence
  | blobIndexOutOfBounds
  | claimNotStream
  | eof
  | otherMsg (msg : String)
  deriving DecidableEq

/-- A decrypted plaintext chunk, as a byte list. -/
abbrev Chunk := List Nat

/-- One entry of the stream descriptor blob list (stream.BlobInfo): a length
(a Go int), the content blob hash (hex string) and the IV. -/
structure BlobInfo where
  length : Int
  blobHash : String
  iv : List Nat
  deriving DecidableEq

/-- The parsed stream descriptor (stream.SDBlob): AES key and blob infos. -/
structure SDBlob where
  key : List Nat
  blobInfos : List BlobInfo
  deriving DecidableEq

/-- Oracle for the effectful blob source (the hot cache of the player):
`getChunk hash key iv` models blobSource.GetChunk and may return an error,
a nil chunk (`Except.ok none`, Go returns nil chunk and nil error then) or
a chunk; `isCached` models blobSource.IsCached; `clearChunk` models
blobSource.clearChuckFromCache. -/
structure BlobSource where
  getChunk : String → List Nat → List Nat → Except GoError (Option Chunk)
  isCached : String → Bool
  clearChunk : String → Option GoError

/-- The mutable fields of player.Stream that the embedded operations touch:
Size (uint64), seekOffset (int64), the prefetch bookkeeping, the
prefetch-enabled flag of the player, whether claim.Value.GetStream() is
non-nil, the size carried by the claim source (source.GetSize()), and the
parsed sd blob. -/
structure StreamState where
  Size : Nat
  seekOffset : Int
  prefetchedChunks : List Int
  prefetchEnabled : Bool
  hasStream : Bool
  sourceSize : Nat
  sdBlob : SDBlob
  deriving DecidableEq

/-- Go conversion uint64(x) of an int64 value: reduce modulo 2^64. -/
def u64ofInt (i : Int) : Nat := (i % 18446744073709551616).toNat

/-- Total indexing with a Go int index: `none` models the runtime panic of
an out-of-range Go slice access. -/
def intGet? (l : List α) (i : Int) : Option α :=
  if i < 0 then none else l.get? i.toNat

/-- Length of a possibly-nil chunk (len of a nil Go slice is 0). -/
def chunkOptLen (c : Option Chunk) : Nat := (c.getD []).length

/-- Placeholder blob info used where an index is provably in range. -/
def dfltBlobInfo : BlobInfo := ⟨0, "", []⟩

/-- Stream.getStreamSizeFromLastBlobSize (player/stream.go lines 272-290):
error when the claim is not a stream; 0 when there is at most one blob
info; otherwise fetch the last non-terminator chunk and return
MaxChunkSize*(numChunks-1) + len(lastChunk) in uint64 arithmetic, where
numChunks is len(BlobInfos)-1.  The index numChunks-1 is provably in range
on the path that uses it, so the lastBI accessor below uses getD. -/
def lastBI (s : StreamState) : BlobInfo :=
  s.sdBlob.blobInfos.getD ((s.sdBlob.blobInfos.length : Int) - 1 - 1).toNat dfltBlobInfo

def getStreamSizeFromLastBlobSize (s : StreamState) (src : BlobSource) :
    Except GoError Nat :=
  if s.hasStream = false then .error .claimNotStream
  else if (s.sdBlob.blobInfos.length : Int) - 1 ≤ 0 then .ok 0
  else
    match src.getChunk (lastBI s).blobHash s.sdBlob.key (lastBI s).iv with
    | .error e => .error e
    | .ok c =>
      .ok ((MaxChunkSize * ((s.sdBlob.blobInfos.length : Int) - 1 - 1).toNat + chunkOptLen c)
        % two64)

/-- One iteration of the size-guessing loop in Stream.setSize (lines
100-106): a blob of length stream.MaxBlobSize contributes MaxChunkSize,
any other blob contributes uint64(length-1); uint64 addition wraps. -/
def heuristicStep (acc : Nat) (b : BlobInfo) : Nat :=
  if b.length = (MaxBlobSize : Int) then (acc + MaxChunkSize) % two64
  else (acc + u64ofInt (b.length - 1)) % two64

/-- The full size heuristic of Stream.setSize (lines 100-108): the loop over
all blob infos followed by the unconditional subtraction of 16, in uint64
arithmetic. -/
def heuristicSize (blobs : List BlobInfo) : Nat :=
  ((blobs.foldl heuristicStep 0) + (two64 - 16)) % two64

/-- The per-blob contribution of the heuristic, for stating the heuristic as
a plain sum. -/
def contrib (b : BlobInfo) : Nat :=
  if b.length = (MaxBlobSize : Int) then MaxChunkSize else u64ofInt (b.length - 1)

/-- Stream.setSize (player/stream.go lines 83-111): keep a positive Size;
else take a positive claim-source size; else take the last-chunk size if
that method returns without error; else fall back to the heuristic (the
local variable size is 0 after a failed last-chunk call, since that
function returns 0 together with its error). -/
def setSize (s : StreamState) (src : BlobSource) : StreamState :=
  if 0 < s.Size then s
  else if 0 < s.sourceSize then { s with Size := s.sourceSize }
  else
    match getStreamSizeFromLastBlobSize s src with
    | .ok sz => { s with Size := sz }
    | .error _ => { s with Size := heuristicSize s.sdBlob.blobInfos }

/-- Wrap an unbounded integer into the int64 range, two-s complement. -/
def wrap64i (x : Int) : Int :=
  (x + 9223372036854775808) % 18446744073709551616 - 9223372036854775808

/-- Go conversion int64(n) of a uint64 value. -/
def toInt64 (n : Nat) : Int := wrap64i (n : Int)

/-- Helper for the float64 rounding: smallest shift s (searched with bounded
fuel) such that n / 2^s fits in 53 bits. -/
def flShiftAux (n : Nat) : Nat → Nat → Nat
  | 0, s => s
  | fuel + 1, s =>
    if n / 2 ^ s < 9007199254740992 then s else flShiftAux n fuel (s + 1)

/-- The shift needed to round n to a 53-bit mantissa. -/
def flShift (n : Nat) : Nat := flShiftAux n 64 0

/-- The value of uint64(math.Abs(float64(x))) for a non-negative integer n
with n ≤ 2^63: IEEE-754 round-to-nearest, ties-to-even, to a 53-bit
mantissa.  Exact for n < 2^53. -/
def floatRound (n : Nat) : Nat :=
  let s := flShift n
  if s = 0 then n
  else
    let q := n / 2 ^ s
    let r := n % 2 ^ s
    let half := 2 ^ (s - 1)
    let q2 := if half < r || (r = half && q % 2 = 1) then q + 1 else q
    q2 * 2 ^ s

/-- Stream.Seek (player/stream.go lines 119-145): errStreamSizeZero when
Size is 0 (checked first); errOutOfBounds when
uint64(math.Abs(float64(offset))) > Size; then the whence switch (0 start,
1 current, 2 end, anything else the invalid-whence error); then
errSeekingBeforeStart for a negative resolved offset; on success the
resolved offset is stored and returned.  int64 arithmetic wraps.  The
shared tail (the negative check and the store) is factored into seekTo. -/
def seekTo (s : StreamState) (no : Int) : (Int × Option GoError) × StreamState :=
  if no < 0 then ((0, some .seekingBeforeStart), s)
  else ((no, none), { s with seekOffset := no })

def Seek (s : StreamState) (offset : Int) (whence : Int) :
    (Int × Option GoError) × StreamState :=
  if s.Size = 0 then ((0, some .streamSizeZero), s)
  else if s.Size < floatRound offset.natAbs then ((0, some .outOfBounds), s)
  else if whence = 0 then seekTo s offset
  else if whence = 1 then seekTo s (wrap64i (s.seekOffset + offset))
  else if whence = 2 then seekTo s (wrap64i (toInt64 s.Size - offset))
  else ((0, some .invalidWhence), s)

/-- Result of a guarded blob-info access: the guard error, a runtime panic
of the subsequent slice indexing, or a value. -/
inductive GuardResult (α : Type) where
  | err (e : GoError)
  | indexPanic
  | ok (a : α)
  deriving DecidableEq

/-- Output of Stream.GetChunk: the guarded result (a nil or real chunk on
success), the updated prefetch bookkeeping, and the index scheduled for
background prefetch, if any. -/
structure GetChunkOut where
  result : GuardResult (Option Chunk)
  prefetched : List Int
  scheduled : Option Int
  deriving DecidableEq

/-- Stream.GetChunk (player/stream.go lines 221-241): reject chunkIdx >
len(BlobInfos); index the blob infos (panic when out of range); fetch via
the blob source (error or nil chunk are returned as-is); on a successful
non-nil chunk, if prefetch is enabled and index chunkIdx+1 is not yet
marked, mark it and schedule the background prefetch task for it. -/
def GetChunk (s : StreamState) (src : BlobSource) (chunkIdx : Int) : GetChunkOut :=
  if (s.sdBlob.blobInfos.length : Int) < chunkIdx then
    ⟨.err .blobIndexOutOfBounds, s.prefetchedChunks, none⟩
  else
    match intGet? s.sdBlob.blobInfos chunkIdx with
    | none => ⟨.indexPanic, s.prefetchedChunks, none⟩
    | some bi =>
      match src.getChunk bi.blobHash s.sdBlob.key bi.iv with
      | .error e => ⟨.err e, s.prefetchedChunks, none⟩
      | .ok none => ⟨.ok none, s.prefetchedChunks, none⟩
      | .ok (some chunk) =>
        let nxt := chunkIdx + 1
        if s.prefetchEnabled && !(s.prefetchedChunks.contains nxt) then
          ⟨.ok (some chunk), nxt :: s.prefetchedChunks, some nxt⟩
        else ⟨.ok (some chunk), s.prefetchedChunks, none⟩

/-- Stream.RemoveChunk (player/stream.go lines 210-218): reject chunkIdx >
len(BlobInfos); index the blob infos (panic when out of range); clear the
blob hash from the cache, returning the hash that was cleared together
with the clear call result (the Go function returns that error). -/
def RemoveChunk (s : StreamState) (src : BlobSource) (chunkIdx : Int) :
    GuardResult (String × Option GoError) :=
  if (s.sdBlob.blobInfos.length : Int) < chunkIdx then .err .blobIndexOutOfBounds
  else
    match intGet? s.sdBlob.blobInfos chunkIdx with
    | none => .indexPanic
    | some bi => .ok (bi.blobHash, src.clearChunk bi.blobHash)

/-- The loop body of Stream.prefetchChunk (player/stream.go lines 254-268)
over the sliced blob infos, returning the trace of hashes on which
blobSource.GetChunk is called: cached hashes are skipped, a fetch error
ends the task. -/
def prefetchLoop (s : StreamState) (src : BlobSource) : List BlobInfo → List String
  | [] => []
  | bi :: rest =>
    if src.isCached bi.blobHash then prefetchLoop s src rest
    else
      match src.getChunk bi.blobHash s.sdBlob.key bi.iv with
      | .error _ => [bi.blobHash]
      | .ok _ => bi.blobHash :: prefetchLoop s src rest

/-- Stream.prefetchChunk (player/stream.go lines 243-269): the window length
is DefaultPrefetchLen clipped to chunksLeft = len(BlobInfos)-chunkIdx-1
(the last blob info is the terminator), factored out as prefetchLenFor;
nothing happens for a window of non-positive length; otherwise iterate
BlobInfos[chunkIdx : chunkIdx+prefetchLen], tracing the hashes on which
GetChunk is called. -/
def prefetchLenFor (s : StreamState) (chunkIdx : Int) : Int :=
  if (s.sdBlob.blobInfos.length : Int) - chunkIdx - 1 < (DefaultPrefetchLen : Int)
  then (s.sdBlob.blobInfos.length : Int) - chunkIdx - 1
  else (DefaultPrefetchLen : Int)

def prefetchChunkTrace (s : StreamState) (src : BlobSource) (chunkIdx : Int) :
    List String :=
  if prefetchLenFor s chunkIdx ≤ 0 then []
  else
    prefetchLoop s src
      ((s.sdBlob.blobInfos.drop chunkIdx.toNat).take (prefetchLenFor s chunkIdx).toNat)

/-- Modelled from the spec: the streamRange record of section 4.E step 1.
The type and getRange live outside the provided source files. -/
structure streamRange where
  FirstChunkIdx : Nat
  LastChunkIdx : Nat
  FirstChunkOffset : Nat
  LastChunkReadLen : Nat
  deriving DecidableEq

/-- Modelled from the spec (section 4.E step 1): firstChunk = O/MaxChunkSize,
lastChunk = (O+L-1)/MaxChunkSize, firstChunkOffset = O mod MaxChunkSize,
lastChunkReadLen = O+L - lastChunk*MaxChunkSize. -/
def getRange (offset : Nat) (destLen : Nat) : streamRange :=
  { FirstChunkIdx := offset / MaxChunkSize
    LastChunkIdx := (offset + destLen - 1) / MaxChunkSize
    FirstChunkOffset := offset % MaxChunkSize
    LastChunkReadLen :=
      offset + destLen - ((offset + destLen - 1) / MaxChunkSize) * MaxChunkSize }

/-- Modelled from the spec: in-chunk offset and read length for chunk i of a
range; the first chunk starts at FirstChunkOffset, the last chunk ends at
LastChunkReadLen, middle chunks are read whole. -/
def ByteRangeForChunk (sr : streamRange) (i : Nat) : Nat × Nat :=
  let off := if i = sr.FirstChunkIdx then sr.FirstChunkOffset else 0
  ((off, (if i = sr.LastChunkIdx then sr.LastChunkReadLen else MaxChunkSize) - off))

/-- Modelled from the spec (section 4.D): ReadableChunk.Read copies at most
min(maxLen, len-offset) bytes (also bounded by the destination), and fails
OutOfBounds when offset ≥ len.  Only the byte count is tracked. -/
def chunkRead (c : Option Chunk) (offset maxLen destLen : Nat) : Nat × Option GoError :=
  let l := chunkOptLen c
  if l ≤ offset then (0, some .outOfBounds)
  else (min (min maxLen (l - offset)) destLen, none)

/-- Flattened outcome of Stream.attemptReadFromChunks: whether a slice
access panicked, the chunk index at which the pass stopped, the byte count
delivered, the error if any, and the stream state (prefetch bookkeeping)
after the pass. -/
structure AttemptOut where
  panicked : Bool
  i : Nat
  read : Nat
  err : Option GoError
  state : StreamState
  deriving DecidableEq

/-- The loop of Stream.attemptReadFromChunks (player/stream.go lines
189-208), structurally recursive on the remaining iteration count: for
each chunk of the range fetch it via GetChunk, copy the in-chunk byte
range, accumulate the count (read += n happens before the error check),
and stop on any error. -/
def attemptLoop (src : BlobSource) (sr : streamRange) (destLen : Nat) :
    Nat → Nat → Nat → StreamState → AttemptOut
  | 0, i, read, s => ⟨false, i, read, none, s⟩
  | fuel + 1, i, read, s =>
    let orl := ByteRangeForChunk sr i
    let g := GetChunk s src (Int.ofNat i)
    let s1 := { s with prefetchedChunks := g.prefetched }
    match g.result with
    | .err e => ⟨false, i, read, some e, s1⟩
    | .indexPanic => ⟨true, i, read, none, s1⟩
    | .ok c =>
      let rn := chunkRead c orl.1 orl.2 (destLen - read)
      match rn.2 with
      | some e => ⟨false, i, read + rn.1, some e, s1⟩
      | none => attemptLoop src sr destLen fuel (i + 1) (read + rn.1) s1

/-- Stream.attemptReadFromChunks (player/stream.go lines 189-208): run the
loop from FirstChunkIdx while i < LastChunkIdx+1. -/
def attemptReadFromChunks (s : StreamState) (src : BlobSource) (sr : streamRange)
    (destLen : Nat) : AttemptOut :=
  attemptLoop src sr destLen (sr.LastChunkIdx + 1 - sr.FirstChunkIdx)
    sr.FirstChunkIdx 0 s

/-- Flattened outcome of Stream.readFromChunks: panic flag, the returned
byte count and error, the trace of hashes passed to the cache clear call,
how many read passes ran, and the final stream state. -/
structure ReadChunksOut where
  panicked : Bool
  read : Nat
  err : Option GoError
  removed : List String
  attempts : Nat
  state : StreamState
  deriving DecidableEq

/-- Stream.readFromChunks (player/stream.go lines 167-187), with the
two-iteration retry loop unrolled.  The inner `index, read, err :=`
statement of the source shadows the outer `read` variable, so the final
`return read, nil` after a break or after the loop returns the outer
variable, which is still 0; the embedding reproduces that.  A pass that
ends in an error returns its count and error at once; a pass that reads
zero bytes without error purges the chunk at the index the pass reported
(via RemoveChunk) and the loop runs again. -/
def readFromChunks (s : StreamState) (src : BlobSource) (sr : streamRange)
    (destLen : Nat) : ReadChunksOut :=
  match attemptReadFromChunks s src sr destLen with
  | ⟨true, _, _, _, st1⟩ => ⟨true, 0, none, [], 1, st1⟩
  | ⟨false, _, r1, some e, st1⟩ => ⟨false, r1, some e, [], 1, st1⟩
  | ⟨false, i1, r1, none, st1⟩ =>
    if 0 < r1 then ⟨false, 0, none, [], 1, st1⟩
    else
      match RemoveChunk st1 src (Int.ofNat i1) with
      | .err e => ⟨false, r1, some e, [], 1, st1⟩
      | .indexPanic => ⟨true, 0, none, [], 1, st1⟩
      | .ok (h1, some e) => ⟨false, r1, some e, [h1], 1, st1⟩
      | .ok (h1, none) =>
        match attemptReadFromChunks st1 src sr destLen with
        | ⟨true, _, _, _, st2⟩ => ⟨true, 0, none, [h1], 2, st2⟩
        | ⟨false, _, r2, some e, st2⟩ => ⟨false, r2, some e, [h1], 2, st2⟩
        | ⟨false, i2, r2, none, st2⟩ =>
          if 0 < r2 then ⟨false, 0, none, [h1], 2, st2⟩
          else
            match RemoveChunk st2 src (Int.ofNat i2) with
            | .err e => ⟨false, r2, some e, [h1], 2, st2⟩
            | .indexPanic => ⟨true, 0, none, [h1], 2, st2⟩
            | .ok (h2, e2) => ⟨false, 0, e2, [h1, h2], 2, st2⟩

/-- Flattened outcome of Stream.Read. -/
structure ReadOut where
  panicked : Bool
  n : Nat
  err : Option GoError
  state : StreamState
  deriving DecidableEq

/-- Stream.Read (player/stream.go lines 149-165): delegate to readFromChunks
over getRange(seekOffset, len(dest)) and advance seekOffset by the bytes
delivered.  The zero-bytes-no-error branch of the source only logs (the
`err :=` there shadows the returned err), so the outer values are returned
unchanged; the embedding reproduces that. -/
def Read (s : StreamState) (src : BlobSource) (destLen : Nat) : ReadOut :=
  match readFromChunks s src (getRange s.seekOffset.toNat destLen) destLen with
  | ⟨p, n, e, _, _, st⟩ => ⟨p, n, e, { st with seekOffset := st.seekOffset + (n : Int) }⟩

/-- The shape of an error reaching processStreamError: whether errors.Is
matches errPaidStream, whether it matches errStreamNotFound, and the error
text. -/
structure StreamErr where
  isPaid : Bool
  isNotFound : Bool
  text : String
  deriving DecidableEq

/-- Boolean prefix test on character lists. -/
def isPrefixList : List Char → List Char → Bool
  | [], _ => true
  | _ :: _, [] => false
  | a :: as, b :: bs => a = b && isPrefixList as bs

/-- Boolean substring test on character lists. -/
def containsList (sub : List Char) : List Char → Bool
  | [] => isPrefixList sub []
  | c :: rest => isPrefixList sub (c :: rest) || containsList sub rest

/-- strings.Contains: substring test. -/
def goContains (s sub : String) : Bool := containsList sub.toList s.toList

/-- processStreamError (handler, src/unnamed/part_000 lines 178-203): the
ordered if-chain mapping an error to an HTTP status code, paired with the
response body written by writeErrorResponse (the error text). -/
def processStreamError (e : StreamErr) : Nat × String :=
  if e.isPaid then (402, e.text)
  else if e.isNotFound then (404, e.text)
  else if goContains e.text "blob not found" then (503, e.text)
  else if goContains e.text "hash in response does not match" then (503, e.text)
  else if goContains e.text "token contains an invalid number of segments" then (401, e.text)
  else if goContains e.text "crypto/rsa: verification error" then (401, e.text)
  else if goContains e.text "token is expired" then (410, e.text)
  else (500, e.text)

/-- The status mapping in the words of the claim: 402 paid, 404 not found,
503 for the two blob-fetch texts, 401 for the two token texts, 410 for the
expiry text, 500 otherwise, applied in that order. -/
def claimStatusFor (e : StreamErr) : Nat :=
  if e.isPaid then 402
  else if e.isNotFound then 404
  else if goContains e.text "blob not found" || goContains e.text "hash in response does not match" then 503
  else if goContains e.text "token contains an invalid number of segments" || goContains e.text "crypto/rsa: verification error" then 401
  else if goContains e.text "token is expired" then 410
  else 500

/-- The character class kept by the filename-sanitizing regular expression
of writeHeaders (handler line 173): a Unicode letter (the regexp class is
abstracted as the predicate `letter`), an ASCII digit, a hyphen, a dot, an
underscore or a space. -/
def isFilenameChar (letter : Char → Bool) (c : Char) : Bool :=
  letter c || c.isDigit || c = Char.ofNat 45 || c = Char.ofNat 46 ||
    c = Char.ofNat 95 || c = Char.ofNat 32

/-- The sanitization of writeHeaders (handler line 173): replacing every
maximal run of characters outside the class with the empty string deletes
exactly the characters outside the class. -/
def sanitizeFilename (letter : Char → Bool) (s : String) : String :=
  String.mk (s.toList.filter (isFilenameChar letter))

/-- UTF-8 encoding of one character, as byte values. -/
def utf8Bytes (c : Char) : List Nat :=
  let n := c.toNat
  if n < 128 then [n]
  else if n < 2048 then [192 + n / 64, 128 + n % 64]
  else if n < 65536 then [224 + n / 4096, 128 + (n / 64) % 64, 128 + n % 64]
  else [240 + n / 262144, 128 + (n / 4096) % 64, 128 + (n / 64) % 64, 128 + n % 64]

/-- Uppercase hex digit for a value below 16. -/
def hexUpper (n : Nat) : Char := Char.ofNat (if n < 10 then 48 + n else 55 + n)

/-- Percent-escape of one byte. -/
def escapeByte (b : Nat) : List Char := [Char.ofNat 37, hexUpper (b / 16), hexUpper (b % 16)]

/-- Modelled from the Go standard library (net/url shouldEscape in
path-segment mode, used by url.PathEscape): alphanumerics, the unreserved
marks, and the sub-delims kept verbatim in a path segment are not escaped;
everything else is. -/
def shouldEscapePS (b : Nat) : Bool :=
  if (97 ≤ b && b ≤ 122) || (65 ≤ b && b ≤ 90) || (48 ≤ b && b ≤ 57) then false
  else if b = 45 || b = 95 || b = 46 || b = 126 then false
  else if b = 36 || b = 38 || b = 43 || b = 58 || b = 61 || b = 64 then false
  else true

/-- Modelled from the Go standard library: url.PathEscape over the UTF-8
bytes of the string. -/
def pathEscape (s : String) : String :=
  String.mk (((s.toList.flatMap utf8Bytes).flatMap
    (fun b => if shouldEscapePS b then escapeByte b else [Char.ofNat b])))

/-- A single-quote character (U+0027) as a string, used twice by the
Content-Disposition format string of writeHeaders. -/
def squote : String := String.singleton (Char.ofNat 39)

/-- The Content-Disposition logic of writeHeaders (handler lines 172-175):
when the download query parameter is non-empty (Query().Get returns the
empty string when the parameter is absent) the header value is built from
the sanitized filename and its path-escaped form; otherwise no header is
set. -/
def contentDisposition (letter : Char → Bool) (dlParam : String) (filename : String) :
    Option String :=
  if dlParam = "" then none
  else
    let fn := sanitizeFilename letter filename
    some ("attachment; filename=\"" ++ fn ++ "\"; filename*=UTF-8" ++ squote ++ squote
      ++ pathEscape fn)

/-- The speech route marker of the handler. -/
def speechRoute : String := "/speech/"

/-- strings.LastIndex(uri, ".") over a character list: the index of the last
dot, or -1 when there is none. -/
def goLastIndexDot : List Char → Int
  | [] => -1
  | c :: rest =>
    if 0 ≤ goLastIndexDot rest then goLastIndexDot rest + 1
    else if c = Char.ofNat 46 then 0 else -1

/-- The extension stripping of RequestHandler.Handle (handler lines 37-40):
take the part before the last dot when a dot exists, else leave the string
unchanged. -/
def stripGo (l : List Char) : List Char :=
  let e := goLastIndexDot l
  if 0 ≤ e then l.take e.toNat else l

/-- The suffix removal in the words of the claim: delete the suffix starting
at the last dot, leaving the list unchanged when it has no dot. -/
def removeExtSpec : List Char → List Char
  | [] => []
  | c :: rest =>
    if (Char.ofNat 46) ∈ rest then c :: removeExtSpec rest
    else if c = Char.ofNat 46 then []
    else c :: rest

/-- The URI computation of RequestHandler.Handle (handler lines 35-49):
for a speech URL, take what follows the marker, strip the extension and
answer 404 (none) when the residue is empty; otherwise concatenate
claim_name, a hash sign and claim_id from the route variables. -/
def handleURI (url : String) (claimName claimId : String) : Option String :=
  if isPrefixList speechRoute.toList url.toList then
    let rest := url.toList.drop speechRoute.length
    let uri := stripGo rest
    if uri.isEmpty then none else some (String.mk uri)
  else some (claimName ++ "#" ++ claimId)

/-- A blob source whose fetches always fail, for exercising the heuristic
size path. -/
def srcErr : BlobSource :=
  ⟨fun _ _ _ => .error (.otherMsg "blob not found"), fun _ => false, fun _ => none⟩

/-- A stream whose descriptor holds only the length-0 terminator. -/
def csTermOnly : StreamState := ⟨0, 0, [], false, true, 0, ⟨[], [⟨0, "", []⟩]⟩⟩

/-- A stream with no Size yet but a claim source size of 7. -/
def csSourceSize : StreamState := ⟨0, 0, [], false, true, 7, ⟨[], []⟩⟩

/-- The stream of the end-to-end size scenario: three content blob infos of
lengths 2097136, 2097136 and 5000 followed by the terminator. -/
def csHeur : StreamState :=
  ⟨0, 0, [], false, true, 0,
    ⟨[0], [⟨2097136, "b0", []⟩, ⟨2097136, "b1", []⟩, ⟨5000, "b2", []⟩, ⟨0, "", []⟩]⟩⟩

/-- A blob source holding one 16-byte chunk under hash h0. -/
def srcStub16 : BlobSource :=
  ⟨fun h _ _ => if h = "h0" then .ok (some (List.replicate 16 0)) else .error (.otherMsg "nf"),
    fun _ => false, fun _ => none⟩

/-- A stream of Size 16 whose current offset sits exactly at Size, with one
content blob info and the terminator. -/
def csAtEnd : StreamState := ⟨16, 16, [], false, true, 0, ⟨[], [⟨33, "h0", []⟩, ⟨0, "", []⟩]⟩⟩

/-- A stream whose Size is the largest int64 value. -/
def csSeekBig : StreamState := ⟨9223372036854775807, 0, [], false, true, 0, ⟨[], []⟩⟩

/-- A small stream for the Seek witness. -/
def csSeekSmall : StreamState := ⟨100, 0, [], false, true, 0, ⟨[], []⟩⟩

/-- A stream of seven content blob infos and the terminator, with prefetch
enabled. -/
def csPrefetch : StreamState :=
  ⟨100, 0, [], true, true, 0,
    ⟨[], [⟨10, "a0", []⟩, ⟨10, "a1", []⟩, ⟨10, "a2", []⟩, ⟨10, "a3", []⟩,
      ⟨10, "a4", []⟩, ⟨10, "a5", []⟩, ⟨10, "a6", []⟩, ⟨0, "", []⟩]⟩⟩

/-- A blob source where every fetch succeeds and only hash a2 is cached. -/
def srcPrefetch : BlobSource :=
  ⟨fun _ _ _ => .ok (some [1]), fun h => h = "a2", fun _ => none⟩

example : (setSize csHeur srcErr).Size = 4199252 := by decide
example : (setSize csTermOnly srcErr).Size = 0 := by decide
example : heuristicSize csTermOnly.sdBlob.blobInfos = 18446744073709551599 := by decide
example : floatRound 9223372036854775807 = 9223372036854775808 := by decide
example : (Seek csSeekBig 9223372036854775807 0).1.2 = some GoError.outOfBounds := by decide
example : (Read csAtEnd srcStub16 10).err = some GoError.outOfBounds := by decide
example : (Read csAtEnd srcStub16 10).n = 0 := by decide
example : readFromChunks csAtEnd srcStub16 (getRange 0 0) 0 =
    ⟨false, 0, none, ["", ""], 2, csAtEnd⟩ := by decide
example : (GetChunk csPrefetch srcPrefetch 0).scheduled = some 1 := by decide
example : prefetchChunkTrace csPrefetch srcPrefetch 1 = ["a1", "a3", "a4", "a5"] := by decide
example : sanitizeFilename Char.isAlpha "My Movie!" = "My Movie" := by decide
example : pathEscape "My Movie" = "My%20Movie" := by decide
example : handleURI "/speech/foo.mp4" "n" "i" = some "foo" := by decide
example : handleURI "/speech/" "n" "i" = none := by decide
example : handleURI "/speech/.mp4" "n" "i" = none := by decide
example : handleURI "/claims/x" "nm" "id" = some "nm#id" := by decide

lemma wrap64i_eq_self (x : Int) (h1 : -9223372036854775808 ≤ x)
    (h2 : x < 9223372036854775808) : wrap64i x = x := by
  unfold wrap64i
  have h3 : (0 : Int) ≤ x + 9223372036854775808 := by omega
  have h4 : x + 9223372036854775808 < 18446744073709551616 := by omega
  rw [Int.emod_eq_of_lt h3 h4]
  omega

lemma heuristicStep_eq (acc : Nat) (b : BlobInfo) :
    heuristicStep acc b = (acc + contrib b) % two64 := by
  unfold heuristicStep contrib
  split <;> rfl

lemma foldl_heuristicStep (blobs : List BlobInfo) :
    ∀ acc : Nat, blobs.foldl heuristicStep (acc % two64) =
      (acc + (blobs.map contrib).sum) % two64 := by
  induction blobs with
  | nil => intro acc; simp
  | cons b rest ih =>
    intro acc
    rw [List.foldl_cons, heuristicStep_eq, Nat.mod_add_mod, ih (acc + contrib b)]
    rw [List.map_cons, List.sum_cons, Nat.add_assoc]

lemma heuristicSize_eq_sum (blobs : List BlobInfo) :
    heuristicSize blobs = ((blobs.map contrib).sum + (two64 - 16)) % two64 := by
  unfold heuristicSize
  have h0 := foldl_heuristicStep blobs 0
  rw [Nat.zero_mod] at h0
  rw [h0, Nat.zero_add, Nat.mod_add_mod]

lemma attemptLoop_Size (src : BlobSource) (sr : streamRange) (destLen : Nat) :
    ∀ fuel i read s, (attemptLoop src sr destLen fuel i read s).state.Size = s.Size := by
  intro fuel
  induction fuel with
  | zero => intro i read s; rfl
  | succ f ih =>
    intro i read s
    simp only [attemptLoop]
    split
    · rfl
    · rfl
    · split
      · rfl
      · rw [ih]

lemma attemptRead_Size (s : StreamState) (src : BlobSource) (sr : streamRange)
    (destLen : Nat) : (attemptReadFromChunks s src sr destLen).state.Size = s.Size := by
  unfold attemptReadFromChunks
  exact attemptLoop_Size src sr destLen _ _ _ s

lemma readFromChunks_Size (s : StreamState) (src : BlobSource) (sr : streamRange)
    (destLen : Nat) : (readFromChunks s src sr destLen).state.Size = s.Size := by
  have h1 := attemptRead_Size s src sr destLen
  have h2 := attemptRead_Size (attemptReadFromChunks s src sr destLen).state src sr destLen
  unfold readFromChunks
  rcases ha1 : attemptReadFromChunks s src sr destLen with ⟨p1, i1, r1, e1, st1⟩
  rw [ha1] at h1 h2
  simp only at h1 h2
  cases p1
  · cases e1
    · by_cases hr1 : 0 < r1
      · simp only [if_pos hr1]; exact h1
      · simp only [if_neg hr1]
        cases hrm : RemoveChunk st1 src (Int.ofNat i1) with
        | err e => exact h1
        | indexPanic => exact h1
        | ok pr =>
          rcases pr with ⟨hh, ee⟩
          cases ee
          · rcases ha2 : attemptReadFromChunks st1 src sr destLen with ⟨p2, i2, r2, e2, st2⟩
            rw [ha2] at h2
            simp only at h2
            cases p2
            · cases e2
              · by_cases hr2 : 0 < r2
                · simp only [if_pos hr2]; exact h2.trans h1
                · simp only [if_neg hr2]
                  cases RemoveChunk st2 src (Int.ofNat i2) with
                  | err e => exact h2.trans h1
                  | indexPanic => exact h2.trans h1
                  | ok pr2 => rcases pr2 with ⟨hh2, ee2⟩; exact h2.trans h1
              · exact h2.trans h1
            · exact h2.trans h1
          · exact h1
    · exact h1
  · exact h1

lemma Read_Size (s : StreamState) (src : BlobSource) (destLen : Nat) :
    (Read s src destLen).state.Size = s.Size := by
  have h1 := readFromChunks_Size s src (getRange s.seekOffset.toNat destLen) destLen
  unfold Read
  rcases ho : readFromChunks s src (getRange s.seekOffset.toNat destLen) destLen with
    ⟨p, n, e, rm, at1, st⟩
  rw [ho] at h1
  exact h1

lemma seekTo_Size (s : StreamState) (no : Int) : ((seekTo s no).2).Size = s.Size := by
  unfold seekTo
  split <;> rfl

lemma Seek_Size (s : StreamState) (offset whence : Int) :
    ((Seek s offset whence).2).Size = s.Size := by
  unfold Seek
  split
  · rfl
  · split
    · rfl
    · split
      · exact seekTo_Size s offset
      · split
        · exact seekTo_Size s _
        · split
          · exact seekTo_Size s _
          · rfl

/-- Claim C1 (amended): after setSize, Size follows the precedence: an
already positive Size is left unchanged; else a positive claim-source size
is taken; else, when the claim is a stream with at least two blob infos
and the last non-terminator chunk is fetched without error, Size is
MaxChunkSize*(n-2) + len(last_chunk) reduced modulo 2^64, with n the
number of blob infos including the terminator; when the claim is a stream
with at most one blob info the last-chunk method succeeds with 0 and Size
is set to 0 (not to the heuristic); when the last-chunk method returns an
error, Size is the heuristic sum (each blob info of length MaxBlobSize
contributes MaxChunkSize, every other contributes length-1 in wrapping
uint64 arithmetic, the terminator thus contributing 2^64-1) minus 16,
modulo 2^64; and neither Seek nor Read ever changes Size. -/
theorem C1_setSize_precedence (s : StreamState) (src : BlobSource) :
    (0 < s.Size → setSize s src = s)
    ∧ (s.Size = 0 → 0 < s.sourceSize → (setSize s src).Size = s.sourceSize)
    ∧ (s.Size = 0 → s.sourceSize = 0 → s.hasStream = true →
        2 ≤ s.sdBlob.blobInfos.length →
        ∀ c : Option Chunk,
          src.getChunk (lastBI s).blobHash s.sdBlob.key (lastBI s).iv = .ok c →
          (setSize s src).Size =
            (MaxChunkSize * (s.sdBlob.blobInfos.length - 2) + chunkOptLen c) % two64)
    ∧ (s.Size = 0 → s.sourceSize = 0 → s.hasStream = true →
        s.sdBlob.blobInfos.length ≤ 1 → (setSize s src).Size = 0)
    ∧ (s.Size = 0 → s.sourceSize = 0 →
        ∀ e, getStreamSizeFromLastBlobSize s src = .error e →
          (setSize s src).Size = heuristicSize s.sdBlob.blobInfos)
    ∧ (∀ blobs, heuristicSize blobs = ((blobs.map contrib).sum + (two64 - 16)) % two64)
    ∧ (∀ off w, ((Seek s off w).2).Size = s.Size)
    ∧ (∀ dl, (Read s src dl).state.Size = s.Size) := by
  refine ⟨?_, ?_, ?_, ?_, ?_, heuristicSize_eq_sum, Seek_Size s, Read_Size s src⟩
  · intro h
    unfold setSize
    rw [if_pos h]
  · intro h0 h1
    unfold setSize
    rw [if_neg (by omega), if_pos h1]
  · intro h0 h1 hs hlen c hc
    have hg : getStreamSizeFromLastBlobSize s src =
        .ok ((MaxChunkSize * (s.sdBlob.blobInfos.length - 2) + chunkOptLen c) % two64) := by
      unfold getStreamSizeFromLastBlobSize
      rw [hs, if_neg (by simp), if_neg (by omega), hc]
      have ht : ((s.sdBlob.blobInfos.length : Int) - 1 - 1).toNat =
          s.sdBlob.blobInfos.length - 2 := by omega
      rw [ht]
    unfold setSize
    rw [if_neg (by omega), if_neg (by omega), hg]
  · intro h0 h1 hs hlen
    have hg : getStreamSizeFromLastBlobSize s src = .ok 0 := by
      unfold getStreamSizeFromLastBlobSize
      rw [hs, if_neg (by simp), if_pos (by omega)]
    unfold setSize
    rw [if_neg (by omega), if_neg (by omega), hg]
  · intro h0 h1 e he
    unfold setSize
    rw [if_neg (by omega), if_neg (by omega), he]

/-- Claim C1 witness: a stream with Size 0 and claim-source size 7 gets
Size 7 from setSize. -/
theorem C1_witness : (setSize csSourceSize srcErr).Size = 7 :=
  (C1_setSize_precedence csSourceSize srcErr).2.1 rfl (by decide)

/-- Claim C1 counterexample: for a descriptor holding only the length-0
terminator (no claim size), setSize sets Size to 0 via the last-chunk
method (which returns 0 without error when there is at most one blob
info), while the else-branch of the claim predicts the heuristic sum,
which is 2^64-17 for this input; the two disagree. -/
theorem C1_counterexample :
    (setSize csTermOnly srcErr).Size = 0
    ∧ heuristicSize csTermOnly.sdBlob.blobInfos = 18446744073709551599
    ∧ (0 : Nat) ≠ 18446744073709551599 :=
  ⟨by decide, by decide, by decide⟩

/-- Claim C2 (amended): for the descriptor with blob info lengths 2097136,
2097136, 5000 and the length-0 terminator, no claim size and a failing
last-chunk fetch, the heuristic path computes Size = 2097135 + 2097135 +
4999 + (2^64-1) - 16 modulo 2^64 = 4199252: none of the blobs has length
MaxBlobSize = 2097152, so each contributes length-1, and the terminator
underflows to 2^64-1. -/
theorem C2_heuristic_value : (setSize csHeur srcErr).Size = 4199252 := by decide

/-- Claim C2 counterexample: the value the claim states, 4199191, is not
what setSize computes on that stream (and neither is the literal sum
2097136+2097136+4999-16 = 4199255). -/
theorem C2_counterexample :
    (setSize csHeur srcErr).Size ≠ 4199191
    ∧ (setSize csHeur srcErr).Size ≠ 2097136 + 2097136 + 4999 - 16 :=
  ⟨by decide, by decide⟩

/-- Claim C3: when a pass of readFromChunks reports zero bytes and no
error, the chunk at the index the pass stopped at is purged (its hash is
handed to the cache clear call via RemoveChunk) and the whole read is
retried exactly once (two passes in total); when the second pass again
reports zero bytes (and its purge succeeds) the zero result is returned
as-is with no error and no third pass; and a pass that reports an error
makes readFromChunks return that count and error at once, with no purge
and no retry. -/
theorem C3_zero_byte_retry (s s1 : StreamState) (src : BlobSource) (sr : streamRange)
    (destLen : Nat) (i1 : Nat) (h : String) :
    (attemptReadFromChunks s src sr destLen = ⟨false, i1, 0, none, s1⟩ →
      RemoveChunk s1 src (Int.ofNat i1) = .ok (h, none) →
        h ∈ (readFromChunks s src sr destLen).removed
        ∧ (readFromChunks s src sr destLen).attempts = 2)
    ∧ (∀ r e, attemptReadFromChunks s src sr destLen = ⟨false, i1, r, some e, s1⟩ →
        readFromChunks s src sr destLen = ⟨false, r, some e, [], 1, s1⟩)
    ∧ (∀ s2 i2 h2, attemptReadFromChunks s src sr destLen = ⟨false, i1, 0, none, s1⟩ →
        RemoveChunk s1 src (Int.ofNat i1) = .ok (h, none) →
        attemptReadFromChunks s1 src sr destLen = ⟨false, i2, 0, none, s2⟩ →
        RemoveChunk s2 src (Int.ofNat i2) = .ok (h2, none) →
        readFromChunks s src sr destLen = ⟨false, 0, none, [h, h2], 2, s2⟩) := by
  refine ⟨?_, ?_, ?_⟩
  · intro ha1 hr1
    unfold readFromChunks
    rw [ha1]
    simp only [Nat.lt_irrefl, if_false]
    rw [hr1]
    rcases ha2 : attemptReadFromChunks s1 src sr destLen with ⟨p2, i2, r2, e2, st2⟩
    cases p2
    · cases e2
      · by_cases hr2 : 0 < r2
        · simp [if_pos hr2]
        · simp only [if_neg hr2]
          cases RemoveChunk st2 src (Int.ofNat i2) with
          | err e => simp
          | indexPanic => simp
          | ok pr2 => rcases pr2 with ⟨hh2, ee2⟩; simp
      · simp
    · simp
  · intro r e ha
    unfold readFromChunks
    rw [ha]
  · intro s2 i2 h2 ha1 hr1 ha2 hr2
    unfold readFromChunks
    rw [ha1]
    simp only [Nat.lt_irrefl, if_false]
    rw [hr1, ha2]
    simp only [Nat.lt_irrefl, if_false]
    rw [hr2]

/-- Claim C3 witness: a concrete two-blob stream where a zero-length read
pass (destination of length 0) triggers the purge of the blob the pass
stopped at and exactly one retry, with the zero result returned. -/
theorem C3_witness :
    readFromChunks csAtEnd srcStub16 (getRange 0 0) 0 =
      ⟨false, 0, none, ["", ""], 2, csAtEnd⟩ :=
  (C3_zero_byte_retry csAtEnd csAtEnd srcStub16 (getRange 0 0) 0 1 "").2.2
    csAtEnd 1 "" (by decide) (by decide) (by decide) (by decide)

/-- Claim C4 (amended): Seek fails StreamSizeZero when Size is 0, checked
before anything else; it fails OutOfBounds when the float64 rounding of
|offset| (the code goes through uint64(math.Abs(float64(offset))), which
equals |offset| only for |offset| ≤ 2^53) exceeds Size; otherwise the
offset resolves to offset for whence 0, seekOffset+offset for whence 1 and
int64(Size)-offset for whence 2 (stated here under the hypotheses that the
int64 arithmetic does not wrap), fails SeekingBeforeStart when the
resolved offset is negative, and on success stores and returns the
resolved offset; any other whence fails; on every failure the stream is
unchanged. -/
theorem C4_seek_behaviour (s : StreamState) (offset : Int) (whence : Int) :
    (s.Size = 0 → Seek s offset whence = ((0, some GoError.streamSizeZero), s))
    ∧ (s.Size ≠ 0 → s.Size < floatRound offset.natAbs →
        Seek s offset whence = ((0, some GoError.outOfBounds), s))
    ∧ (s.Size ≠ 0 → ¬ s.Size < floatRound offset.natAbs → whence = 0 →
        (offset < 0 → Seek s offset whence = ((0, some GoError.seekingBeforeStart), s))
        ∧ (0 ≤ offset →
            Seek s offset whence = ((offset, none), { s with seekOffset := offset })))
    ∧ (s.Size ≠ 0 → ¬ s.Size < floatRound offset.natAbs → whence = 1 →
        -9223372036854775808 ≤ s.seekOffset + offset →
        s.seekOffset + offset < 9223372036854775808 →
        (s.seekOffset + offset < 0 →
            Seek s offset whence = ((0, some GoError.seekingBeforeStart), s))
        ∧ (0 ≤ s.seekOffset + offset →
            Seek s offset whence = ((s.seekOffset + offset, none),
              { s with seekOffset := s.seekOffset + offset })))
    ∧ (s.Size ≠ 0 → ¬ s.Size < floatRound offset.natAbs → whence = 2 →
        (s.Size : Int) < 9223372036854775808 →
        -9223372036854775808 ≤ (s.Size : Int) - offset →
        (s.Size : Int) - offset < 9223372036854775808 →
        ((s.Size : Int) - offset < 0 →
            Seek s offset whence = ((0, some GoError.seekingBeforeStart), s))
        ∧ (0 ≤ (s.Size : Int) - offset →
            Seek s offset whence = (((s.Size : Int) - offset, none),
              { s with seekOffset := (s.Size : Int) - offset })))
    ∧ (whence ≠ 0 → whence ≠ 1 → whence ≠ 2 → s.Size ≠ 0 →
        ¬ s.Size < floatRound offset.natAbs →
        Seek s offset whence = ((0, some GoError.invalidWhence), s)) := by
  refine ⟨?_, ?_, ?_, ?_, ?_, ?_⟩
  · intro h
    unfold Seek
    rw [if_pos h]
  · intro h0 h1
    unfold Seek
    rw [if_neg h0, if_pos h1]
  · intro h0 h1 hw
    subst hw
    constructor
    · intro hn
      unfold Seek seekTo
      rw [if_neg h0, if_neg h1, if_pos rfl, if_pos hn]
    · intro hn
      unfold Seek seekTo
      rw [if_neg h0, if_neg h1, if_pos rfl, if_neg (by omega)]
  · intro h0 h1 hw hlo hhi
    subst hw
    have hwr : wrap64i (s.seekOffset + offset) = s.seekOffset + offset :=
      wrap64i_eq_self _ hlo hhi
    constructor
    · intro hn
      unfold Seek seekTo
      rw [if_neg h0, if_neg h1, if_neg (by omega), if_pos rfl, hwr, if_pos hn]
    · intro hn
      unfold Seek seekTo
      rw [if_neg h0, if_neg h1, if_neg (by omega), if_pos rfl, hwr, if_neg (by omega)]
  · intro h0 h1 hw hsz hlo hhi
    subst hw
    have ht : toInt64 s.Size = (s.Size : Int) := by
      unfold toInt64
      exact wrap64i_eq_self _ (by omega) hsz
    have hwr : wrap64i ((s.Size : Int) - offset) = (s.Size : Int) - offset :=
      wrap64i_eq_self _ hlo hhi
    constructor
    · intro hn
      unfold Seek seekTo
      rw [if_neg h0, if_neg h1, if_neg (by omega), if_neg (by omega), if_pos rfl, ht, hwr,
        if_pos hn]
    · intro hn
      unfold Seek seekTo
      rw [if_neg h0, if_neg h1, if_neg (by omega), if_neg (by omega), if_pos rfl, ht, hwr,
        if_neg (by omega)]
  · intro hw0 hw1 hw2 h0 h1
    unfold Seek
    rw [if_neg h0, if_neg h1, if_neg hw0, if_neg hw1, if_neg hw2]

/-- Claim C4 counterexample: with Size = 2^63-1 and offset = 2^63-1 from
start, |offset| does not exceed Size and the resolved offset is
non-negative, yet Seek fails with OutOfBounds and leaves the stream
unchanged, because float64(2^63-1) rounds up to 2^63. -/
theorem C4_counterexample :
    (Seek csSeekBig 9223372036854775807 0).1.2 = some GoError.outOfBounds
    ∧ (Seek csSeekBig 9223372036854775807 0).2 = csSeekBig
    ∧ ¬ ((9223372036854775807 : Int).natAbs > csSeekBig.Size)
    ∧ (0 : Int) ≤ 9223372036854775807 :=
  ⟨by decide, by decide, by decide, by decide⟩

/-- Claim C4 witness: seeking to offset 50 from start on a stream of Size
100 succeeds, stores 50 and returns it. -/
theorem C4_witness :
    Seek csSeekSmall 50 0 = ((50, none), { csSeekSmall with seekOffset := 50 }) :=
  ((C4_seek_behaviour csSeekSmall 50 0).2.2.1 (by decide) (by decide) rfl).2 (by decide)

lemma prefetchLoop_notCached (s : StreamState) (src : BlobSource) :
    ∀ l (h : String), h ∈ prefetchLoop s src l → src.isCached h = false := by
  intro l
  induction l with
  | nil => intro h hh; simp [prefetchLoop] at hh
  | cons bi rest ih =>
    intro h hh
    by_cases hc : src.isCached bi.blobHash
    · rw [prefetchLoop, if_pos hc] at hh
      exact ih h hh
    · have hc' : src.isCached bi.blobHash = false := by
        simpa using hc
      rw [prefetchLoop, if_neg hc] at hh
      cases hg : src.getChunk bi.blobHash s.sdBlob.key bi.iv with
      | error e =>
        rw [hg] at hh
        simp only [List.mem_singleton] at hh
        subst hh
        exact hc'
      | ok c =>
        rw [hg] at hh
        simp only [List.mem_cons] at hh
        rcases hh with rfl | hh
        · exact hc'
        · exact ih h hh

lemma prefetchLoop_prefix (s : StreamState) (src : BlobSource) :
    ∀ l : List BlobInfo,
      prefetchLoop s src l <+:
        ((l.filter (fun bi => !(src.isCached bi.blobHash))).map (fun bi => bi.blobHash)) := by
  intro l
  induction l with
  | nil => exact List.nil_prefix
  | cons bi rest ih =>
    by_cases hc : src.isCached bi.blobHash
    · rw [prefetchLoop, if_pos hc, List.filter_cons, if_neg (by simp [hc])]
      exact ih
    · rw [prefetchLoop, if_neg hc, List.filter_cons, if_pos (by simp [Bool.not_eq_true] at hc; simp [hc])]
      cases hg : src.getChunk bi.blobHash s.sdBlob.key bi.iv with
      | error e => exact ⟨_, rfl⟩
      | ok c =>
        rcases ih with ⟨t, ht⟩
        exact ⟨t, by rw [List.map_cons, List.cons_append, ht]⟩

/-- Claim C5: GetChunk schedules a background prefetch of index i+1 exactly
when the foreground fetch succeeded with a real chunk, prefetch is enabled
and i+1 is not yet marked; the scheduled index is marked; the prefetch
window has length prefetchLenFor, which is at most DefaultPrefetchLen and
clipped so that the window never includes or passes the terminator blob
(the last blob info); the trace of hashes the background task fetches is a
prefix (it stops at the first fetch error) of the window entries whose
IsCached check is false; and no hash whose IsCached check is true is ever
fetched by the task. -/
theorem C5_prefetch_window (s : StreamState) (src : BlobSource) (i : Int) :
    ((GetChunk s src i).scheduled = some (i + 1) ↔
      ((∃ c : Chunk, (GetChunk s src i).result = .ok (some c))
        ∧ s.prefetchEnabled = true ∧ s.prefetchedChunks.contains (i + 1) = false))
    ∧ ((GetChunk s src i).scheduled = some (i + 1) →
        (GetChunk s src i).prefetched.contains (i + 1) = true)
    ∧ (prefetchLenFor s (i + 1) ≤ 0 → prefetchChunkTrace s src (i + 1) = [])
    ∧ prefetchLenFor s (i + 1) ≤ (DefaultPrefetchLen : Int)
    ∧ (i + 1) + prefetchLenFor s (i + 1) ≤ (s.sdBlob.blobInfos.length : Int) - 1
    ∧ prefetchChunkTrace s src (i + 1) <+:
        ((((s.sdBlob.blobInfos.drop (i + 1).toNat).take
            (prefetchLenFor s (i + 1)).toNat).filter
          (fun bi => !(src.isCached bi.blobHash))).map (fun bi => bi.blobHash))
    ∧ (∀ h, h ∈ prefetchChunkTrace s src (i + 1) → src.isCached h = false) := by
  have hAB : ((GetChunk s src i).scheduled = some (i + 1) ↔
      ((∃ c : Chunk, (GetChunk s src i).result = .ok (some c))
        ∧ s.prefetchEnabled = true ∧ s.prefetchedChunks.contains (i + 1) = false))
      ∧ ((GetChunk s src i).scheduled = some (i + 1) →
        (GetChunk s src i).prefetched.contains (i + 1) = true) := by
    unfold GetChunk
    by_cases hg : (s.sdBlob.blobInfos.length : Int) < i
    · simp [hg]
    · simp only [if_neg hg]
      cases hbi : intGet? s.sdBlob.blobInfos i with
      | none => simp
      | some bi =>
        cases hc : src.getChunk bi.blobHash s.sdBlob.key bi.iv with
        | error e => simp [hc]
        | ok copt =>
          cases copt with
          | none => simp [hc]
          | some chunk =>
            by_cases hpe : s.prefetchEnabled = true
            · by_cases hct : (i + 1) ∈ s.prefetchedChunks
              · simp [hc, hpe, hct]
              · simp [hc, hpe, hct]
            · have hpe' : s.prefetchEnabled = false := by simpa using hpe
              simp [hc, hpe']
  refine ⟨hAB.1, hAB.2, ?_, ?_, ?_, ?_, ?_⟩
  · intro hle
    unfold prefetchChunkTrace
    rw [if_pos hle]
  · unfold prefetchLenFor DefaultPrefetchLen
    split <;> omega
  · unfold prefetchLenFor DefaultPrefetchLen
    split <;> omega
  · unfold prefetchChunkTrace
    by_cases hle : prefetchLenFor s (i + 1) ≤ 0
    · rw [if_pos hle]
      exact List.nil_prefix
    · rw [if_neg hle]
      exact prefetchLoop_prefix s src _
  · intro h hh
    unfold prefetchChunkTrace at hh
    by_cases hle : prefetchLenFor s (i + 1) ≤ 0
    · rw [if_pos hle] at hh
      simp at hh
    · rw [if_neg hle] at hh
      exact prefetchLoop_notCached s src _ h hh

/-- Claim C5 witness: on a seven-content-blob stream with prefetch enabled,
fetching chunk 0 schedules a prefetch of chunk 1 and marks it. -/
theorem C5_witness :
    (GetChunk csPrefetch srcPrefetch 0).scheduled = some 1
    ∧ (GetChunk csPrefetch srcPrefetch 0).prefetched.contains 1 = true := by
  have h1 : (GetChunk csPrefetch srcPrefetch 0).scheduled = some 1 :=
    (C5_prefetch_window csPrefetch srcPrefetch 0).1.mpr
      ⟨⟨[1], by decide⟩, by decide, by decide⟩
  exact ⟨h1, (C5_prefetch_window csPrefetch srcPrefetch 0).2.1 h1⟩

/-- Claim C10: the index guard of GetChunk and RemoveChunk rejects an index
only when it is strictly greater than len(BlobInfos); for an index equal
to len(BlobInfos) and for every negative index the guard passes and the
subsequent slice access is out of range (the embedded total indexing
reports the panic, not the blob-index error); for an index within
[0, len) the access never panics. -/
theorem C10_index_guard (s : StreamState) (src : BlobSource) (idx : Int) :
    ((s.sdBlob.blobInfos.length : Int) < idx →
      (GetChunk s src idx).result = .err .blobIndexOutOfBounds
      ∧ RemoveChunk s src idx = .err .blobIndexOutOfBounds)
    ∧ (idx = (s.sdBlob.blobInfos.length : Int) ∨ idx < 0 →
      (GetChunk s src idx).result = GuardResult.indexPanic
      ∧ RemoveChunk s src idx = GuardResult.indexPanic)
    ∧ (0 ≤ idx → idx < (s.sdBlob.blobInfos.length : Int) →
      (GetChunk s src idx).result ≠ GuardResult.indexPanic
      ∧ RemoveChunk s src idx ≠ GuardResult.indexPanic) := by
  refine ⟨?_, ?_, ?_⟩
  · intro h
    unfold GetChunk RemoveChunk
    rw [if_pos h, if_pos h]
    exact ⟨rfl, rfl⟩
  · intro h
    have hguard : ¬ (s.sdBlob.blobInfos.length : Int) < idx := by
      rcases h with h | h <;> omega
    have hnone : intGet? s.sdBlob.blobInfos idx = none := by
      unfold intGet?
      rcases h with h | h
      · rw [if_neg (by omega)]
        have ht : idx.toNat = s.sdBlob.blobInfos.length := by omega
        rw [ht]
        exact List.get?_eq_none.mpr (Nat.le_refl _)
      · rw [if_pos h]
    unfold GetChunk RemoveChunk
    rw [if_neg hguard, if_neg hguard, hnone]
    exact ⟨rfl, rfl⟩
  · intro h0 h1
    have hguard : ¬ (s.sdBlob.blobInfos.length : Int) < idx := by omega
    have hlt : idx.toNat < s.sdBlob.blobInfos.length := by omega
    obtain ⟨bi, hbi⟩ : ∃ bi, intGet? s.sdBlob.blobInfos idx = some bi := by
      unfold intGet?
      rw [if_neg (by omega)]
      exact ⟨_, List.get?_eq_get hlt⟩
    unfold GetChunk RemoveChunk
    rw [if_neg hguard, if_neg hguard, hbi]
    constructor
    · cases hc : src.getChunk bi.blobHash s.sdBlob.key bi.iv with
      | error e => simp [hc]
      | ok copt =>
        cases copt with
        | none => simp [hc]
        | some chunk =>
          by_cases hpe : s.prefetchEnabled = true ∧ ¬ (idx + 1) ∈ s.prefetchedChunks
          · simp [hc, hpe]
          · simp [hc, hpe]
    · simp

/-- Claim C10 witness: on a stream of two blob infos, index 2 (equal to the
length) passes the guard and the access panics in both functions. -/
theorem C10_witness :
    (GetChunk csAtEnd srcStub16 2).result = GuardResult.indexPanic
    ∧ RemoveChunk csAtEnd srcStub16 2 = GuardResult.indexPanic :=
  (C10_index_guard csAtEnd srcStub16 2).2.1 (Or.inl (by decide))

/-- Claim C7: processStreamError maps an error to exactly one status - 402
for the paid-stream error, 404 for stream-not-found, 503 for the two
blob-fetch texts, 401 for the two token texts, 410 for the expiry text and
500 otherwise, checked in that order - and writes the error text as the
response body. -/
theorem C7_error_status_map (e : StreamErr) :
    processStreamError e = (claimStatusFor e, e.text) := by
  by_cases hp : e.isPaid = true <;>
    by_cases hn : e.isNotFound = true <;>
      by_cases h1 : goContains e.text "blob not found" = true <;>
        by_cases h2 : goContains e.text "hash in response does not match" = true <;>
          by_cases h3 : goContains e.text "token contains an invalid number of segments" = true <;>
            by_cases h4 : goContains e.text "crypto/rsa: verification error" = true <;>
              by_cases h5 : goContains e.text "token is expired" = true <;>
                simp [processStreamError, claimStatusFor, hp, hn, h1, h2, h3, h4, h5]

/-- Claim C8: with a non-empty download query parameter the
Content-Disposition header is attachment with the sanitized filename (the
filename keeps exactly the letters, digits, hyphens, dots, underscores and
spaces) and a UTF-8 percent-encoded variant of the same sanitized name; an
absent parameter yields no header; the name My Movie! sanitizes to
My Movie, whose percent-encoding is My%20Movie. -/
theorem C8_content_disposition (letter : Char → Bool) (dl : String) (fname : String) :
    (dl ≠ "" → contentDisposition letter dl fname =
      some ("attachment; filename=\"" ++ sanitizeFilename letter fname ++ "\"; filename*=UTF-8"
        ++ squote ++ squote ++ pathEscape (sanitizeFilename letter fname)))
    ∧ (dl = "" → contentDisposition letter dl fname = none)
    ∧ sanitizeFilename Char.isAlpha "My Movie!" = "My Movie"
    ∧ pathEscape "My Movie" = "My%20Movie" := by
  refine ⟨?_, ?_, by decide, by decide⟩
  · intro h
    unfold contentDisposition
    rw [if_neg h]
  · intro h
    unfold contentDisposition
    rw [if_pos h]

/-- Claim C8 witness: a request with download=1 and filename My Movie! gets
the attachment header built from the sanitized name. -/
theorem C8_witness :
    contentDisposition Char.isAlpha "1" "My Movie!" =
      some ("attachment; filename=\"" ++ sanitizeFilename Char.isAlpha "My Movie!"
        ++ "\"; filename*=UTF-8" ++ squote ++ squote
        ++ pathEscape (sanitizeFilename Char.isAlpha "My Movie!")) :=
  (C8_content_disposition Char.isAlpha "1" "My Movie!").1 (by decide)

lemma goLastIndexDot_nonneg (l : List Char) :
    0 ≤ goLastIndexDot l ↔ (Char.ofNat 46) ∈ l := by
  induction l with
  | nil => simp [goLastIndexDot]
  | cons c rest ih =>
    by_cases hr : 0 ≤ goLastIndexDot rest
    · simp only [goLastIndexDot, if_pos hr]
      constructor
      · intro _
        exact List.mem_cons_of_mem c (ih.mp hr)
      · intro _
        omega
    · simp only [goLastIndexDot, if_neg hr]
      by_cases hc : c = Char.ofNat 46
      · rw [if_pos hc]
        simp [hc]
      · rw [if_neg hc]
        constructor
        · intro h
          omega
        · intro h
          rcases List.mem_cons.mp h with h | h
          · exact absurd h.symm hc
          · exact absurd (ih.mpr h) hr

lemma stripGo_eq (l : List Char) : stripGo l = removeExtSpec l := by
  induction l with
  | nil => rfl
  | cons c rest ih =>
    by_cases hd : (Char.ofNat 46) ∈ rest
    · have hr : 0 ≤ goLastIndexDot rest := (goLastIndexDot_nonneg rest).mpr hd
      unfold stripGo
      simp only [goLastIndexDot, if_pos hr]
      rw [if_pos (by omega : (0 : Int) ≤ goLastIndexDot rest + 1)]
      have ht : (goLastIndexDot rest + 1).toNat = (goLastIndexDot rest).toNat + 1 := by omega
      rw [ht, List.take_succ_cons]
      simp only [removeExtSpec]
      rw [if_pos hd]
      have ih' : rest.take (goLastIndexDot rest).toNat = removeExtSpec rest := by
        rw [← ih]
        unfold stripGo
        rw [if_pos hr]
      rw [ih']
    · have hr : ¬ 0 ≤ goLastIndexDot rest := by
        rw [goLastIndexDot_nonneg]
        exact hd
      by_cases hc : c = Char.ofNat 46
      · unfold stripGo
        simp only [goLastIndexDot, if_neg hr, if_pos hc]
        rw [if_pos (Int.le_refl 0)]
        simp only [removeExtSpec]
        rw [if_neg hd, if_pos hc, Int.toNat_zero, List.take_zero]
      · unfold stripGo
        simp only [goLastIndexDot, if_neg hr, if_neg hc]
        rw [if_neg (by omega : ¬ (0 : Int) ≤ -1)]
        simp only [removeExtSpec]
        rw [if_neg hd, if_neg hc]

/-- Claim C9: for a URL starting with the speech marker, the URI passed to
resolution is the remainder after the marker with the suffix starting at
the last dot removed (unchanged when no dot occurs), and an empty residue
answers 404 (none) without resolving; for every other URL the URI is
claim_name, a hash sign and claim_id concatenated. -/
theorem C9_uri_resolution (url claimName claimId : String) :
    (isPrefixList speechRoute.toList url.toList = true →
      handleURI url claimName claimId =
        (if (removeExtSpec (url.toList.drop speechRoute.length)).isEmpty then none
          else some (String.mk (removeExtSpec (url.toList.drop speechRoute.length)))))
    ∧ (isPrefixList speechRoute.toList url.toList = false →
      handleURI url claimName claimId = some (claimName ++ "#" ++ claimId))
    ∧ handleURI "/speech/foo.mp4" claimName claimId = some "foo"
    ∧ handleURI "/speech/whatever" claimName claimId = some "whatever"
    ∧ handleURI "/speech/" claimName claimId = none
    ∧ handleURI "/speech/.mp4" claimName claimId = none := by
  refine ⟨?_, ?_, rfl, rfl, rfl, rfl⟩
  · intro h
    unfold handleURI
    rw [if_pos h]
    simp only [stripGo_eq]
  · intro h
    unfold handleURI
    rw [if_neg (show ¬ isPrefixList speechRoute.toList url.toList = true by
      rw [h]; exact Bool.false_ne_true)]

/-- Claim C9 witness: the speech URL with residue ab.cd resolves through the
claimed stripping rule. -/
theorem C9_witness :
    handleURI "/speech/ab.cd" "x" "y" =
      (if (removeExtSpec ("/speech/ab.cd".toList.drop speechRoute.length)).isEmpty then none
        else some (String.mk (removeExtSpec ("/speech/ab.cd".toList.drop speechRoute.length)))) :=
  (C9_uri_resolution "/speech/ab.cd" "x" "y").1 (by decide)

/-- Claim C6 (amended): with the current offset exactly at a known positive
Size, when the stream fits in one chunk whose plaintext length equals Size
and whose blob is fetchable, Read returns 0 bytes together with the
OutOfBounds error of the chunk read (the in-chunk offset equals the chunk
length) - not io.EOF, which no code path of the stream reader produces. -/
theorem C6_read_at_size (s : StreamState) (src : BlobSource) (destLen : Nat)
    (bi : BlobInfo) (c : Chunk)
    (h1 : s.seekOffset = (s.Size : Int)) (h2 : 0 < s.Size) (h3 : s.Size < MaxChunkSize)
    (h4 : s.sdBlob.blobInfos.get? 0 = some bi)
    (h5 : src.getChunk bi.blobHash s.sdBlob.key bi.iv = Except.ok (some c))
    (h6 : c.length = s.Size) :
    (Read s src destLen).n = 0
    ∧ (Read s src destLen).err = some GoError.outOfBounds
    ∧ (Read s src destLen).err ≠ some GoError.eof := by
  have ht : s.seekOffset.toNat = s.Size := by omega
  have hlen : 0 < s.sdBlob.blobInfos.length := by
    rcases List.get?_eq_some.mp h4 with ⟨hl, _⟩
    omega
  have hgcr : (GetChunk s src (Int.ofNat 0)).result = .ok (some c) := by
    unfold GetChunk
    rw [if_neg (by simp)]
    have hbi0 : intGet? s.sdBlob.blobInfos (Int.ofNat 0) = some bi := by
      unfold intGet?
      rw [if_neg (by simp)]
      simpa using h4
    simp only [hbi0, h5]
    split <;> rfl
  have hfi : (getRange s.Size destLen).FirstChunkIdx = 0 := by
    show s.Size / MaxChunkSize = 0
    exact Nat.div_eq_of_lt h3
  have hfo : (getRange s.Size destLen).FirstChunkOffset = s.Size := by
    show s.Size % MaxChunkSize = s.Size
    exact Nat.mod_eq_of_lt h3
  have hbr1 : (ByteRangeForChunk (getRange s.Size destLen) 0).1 = s.Size := by
    unfold ByteRangeForChunk
    rw [if_pos hfi.symm, hfo]
  have hcr : ∀ rl dl2, chunkRead (some c) s.Size rl dl2 = (0, some GoError.outOfBounds) := by
    intro rl dl2
    unfold chunkRead chunkOptLen
    rw [if_pos (by simp [h6])]
  have ha : attemptReadFromChunks s src (getRange s.Size destLen) destLen =
      ⟨false, 0, 0, some GoError.outOfBounds,
        { s with prefetchedChunks := (GetChunk s src (Int.ofNat 0)).prefetched }⟩ := by
    unfold attemptReadFromChunks
    rw [hfi, Nat.sub_zero]
    simp only [attemptLoop]
    rw [hgcr]
    simp only [hbr1, hcr]
  have hrc : readFromChunks s src (getRange s.Size destLen) destLen =
      ⟨false, 0, some GoError.outOfBounds, [], 1,
        { s with prefetchedChunks := (GetChunk s src (Int.ofNat 0)).prefetched }⟩ := by
    unfold readFromChunks
    rw [ha]
  unfold Read
  rw [ht, hrc]
  exact ⟨rfl, rfl, (by decide : some GoError.outOfBounds ≠ some GoError.eof)⟩

/-- Claim C6 counterexample: a stream of Size 16 read at offset 16 returns
0 bytes with the OutOfBounds error, which is not io.EOF, refuting the
claim that the EOF error is returned there. -/
theorem C6_counterexample :
    csAtEnd.Size = 16 ∧ csAtEnd.seekOffset = 16
    ∧ (Read csAtEnd srcStub16 10).n = 0
    ∧ (Read csAtEnd srcStub16 10).err = some GoError.outOfBounds
    ∧ some GoError.outOfBounds ≠ some GoError.eof :=
  ⟨by decide, by decide, by decide, by decide, by decide⟩

/-- Claim C6 witness: the amended statement instantiated on the concrete
Size-16 stream. -/
theorem C6_witness :
    (Read csAtEnd srcStub16 10).n = 0
    ∧ (Read csAtEnd srcStub16 10).err = some GoError.outOfBounds := by
  have h := C6_read_at_size csAtEnd srcStub16 10 ⟨33, "h0", []⟩ (List.replicate 16 0)
    (by decide) (by decide) (by decide) (by decide) (by rfl) (by decide)
  exact ⟨h.1, h.2.1⟩
